import Mathlib

/-!
Verification of the LinkedIn job scraper repository.

The development shallowly embeds the two extraction modules
(`job_page_scraper.py` and `linkedin_job_reporter_ui.py`).  Python strings
are modelled as lists of characters (`Str`) so that every operation is
kernel-computable; a rendered document is modelled as a bundle of query
functions (selector string to optional element text), which is exactly the
capability surface the scraper uses through its webdriver.  Selenium
effects that carry no data into the extracted records (scrolling, clicking
the "show more" button, waiting for the details pane) are not modelled:
they only mutate the browser, never the record.  Calls reading the wall
clock (`datetime.now`) are modelled by an explicit `now` argument.
-/

/-- Python strings, modelled as lists of characters. -/
abbrev Str := List Char

/-- Lower-casing a string, as Python `str.lower()` (per-character). -/
def strLower (s : Str) : Str := s.map Char.toLower

/-- `startsWithL pat s` is true when `pat` is an initial segment of `s`. -/
def startsWithL : Str → Str → Bool
  | [], _ => true
  | _ :: _, [] => false
  | a :: as, b :: bs => a == b && startsWithL as bs

/-- Python's substring test `needle in hay`. -/
def pyIn (needle : Str) : Str → Bool
  | [] => startsWithL needle []
  | c :: t => startsWithL needle (c :: t) || pyIn needle t

/-- Python `str.strip()`: drop whitespace from both ends. -/
def pyTrim (s : Str) : Str :=
  ((s.dropWhile Char.isWhitespace).reverse.dropWhile Char.isWhitespace).reverse

/-- Helper for `pyWords`: accumulate the current word (reversed) while
scanning the string. -/
def pyWordsAux (cur : Str) : Str → List Str
  | [] => if cur = [] then [] else [cur.reverse]
  | c :: cs =>
      if c.isWhitespace then
        if cur = [] then pyWordsAux [] cs else cur.reverse :: pyWordsAux [] cs
      else pyWordsAux (c :: cur) cs

/-- Python `str.split()` with no argument: maximal runs of non-whitespace. -/
def pyWords (s : Str) : List Str := pyWordsAux [] s

/-- Join a list of words with single spaces, as Python `" ".join(ws)`. -/
def joinSpace : List Str → Str
  | [] => []
  | [w] => w
  | w :: ws => w ++ ' ' :: joinSpace ws

/-- The idiom `" ".join(text.split())`: collapse all whitespace runs. -/
def pyNormSpace (s : Str) : Str := joinSpace (pyWords s)

/-!
## Document model

`job_page_scraper.py` reads the page exclusively through three queries:
`wait.until(presence_of_element_located(...))` followed by `.text`
(`find`), the same followed by `.get_attribute("innerHTML")` (`findHtml`,
`none` models both a missing element and a `null` attribute), and
`driver.find_elements(...)` mapped over `.text` (`findAllTexts`).
-/

/-- A rendered document, abstracted to the selector queries the scraper
performs on it. -/
structure Doc where
  find : String → Option Str
  findHtml : String → Option Str
  findAllTexts : String → List Str

/-- The per-field selector lists of one catalog (`job_page_scraper.py`
keys used by the data flow of `run`; the "show more" button and details
pane keys drive only browser effects). -/
structure SelectorCatalog where
  title : List String
  company_name : List String
  location : List String
  description_container : List String
  criteria_list : List String
deriving DecidableEq

/-- `VIEW_PAGE_SELECTORS` of `job_page_scraper.py`. -/
def VIEW_PAGE_SELECTORS : SelectorCatalog where
  title := [".top-card-layout__title",
            ".top-card-layout__title h1",
            "h1.top-card-layout__title",
            ".job-details-jobs-unified-top-card__job-title h1",
            ".job-details-jobs-unified-top-card__job-title"]
  company_name := [".top-card-layout__second-subline a.topcard__org-name-link",
                   ".topcard__org-name-link",
                   ".top-card-layout__second-subline a",
                   ".job-details-jobs-unified-top-card__company-name",
                   ".job-details-jobs-unified-top-card__company-name a"]
  location := [".top-card-layout__second-subline > div:first-child",
               ".topcard__flavor--bullet",
               ".job-details-jobs-unified-top-card__bullet"]
  description_container := [".description__text",
                            ".jobs-description-content__text",
                            ".jobs-description__content",
                            ".job-details-jobs-unified-top-card__job-description",
                            ".jobs-box__html-content"]
  criteria_list := [".description__job-criteria-list li",
                    ".job-details-jobs-unified-top-card__job-insight",
                    ".jobs-unified-top-card__job-insight",
                    ".job-details-jobs-unified-top-card__job-insight-view-model"]

/-- `SEARCH_PAGE_SELECTORS` of `job_page_scraper.py`. -/
def SEARCH_PAGE_SELECTORS : SelectorCatalog where
  title := [".job-details-jobs-unified-top-card__job-title",
            ".job-details-jobs-unified-top-card__job-title h1",
            ".jobs-unified-top-card__job-title",
            ".jobs-unified-top-card__job-title h1"]
  company_name := ["div.job-details-jobs-unified-top-card__primary-description-container a",
                   ".job-details-jobs-unified-top-card__company-name",
                   ".job-details-jobs-unified-top-card__company-name a",
                   ".jobs-unified-top-card__subtitle-primary-grouping a"]
  location := ["div.job-details-jobs-unified-top-card__primary-description-container > div:nth-child(2)",
               ".job-details-jobs-unified-top-card__bullet",
               ".jobs-unified-top-card__bullet"]
  description_container := [".jobs-description-content__text",
                            ".jobs-description__content",
                            ".job-details-jobs-unified-top-card__job-description",
                            ".jobs-box__html-content"]
  criteria_list := [".job-details-jobs-unified-top-card__job-insight",
                    ".jobs-unified-top-card__job-insight",
                    ".job-details-jobs-unified-top-card__job-insight-view-model"]

/-- The search-listing path marker `"/jobs/search/"`. -/
def searchMarker : Str := "/jobs/search/".toList

/-- The direct-item path marker `"/jobs/view/"`. -/
def viewMarker : Str := "/jobs/view/".toList

/-- `LinkedInJobScraper._detect_page_type`: substring tests on the URL,
defaulting to the search catalog. -/
def detect_page_type (job_url : Str) : String :=
  if pyIn searchMarker job_url then "search"
  else if pyIn viewMarker job_url then "view"
  else "search"

/-- `LinkedInJobScraper.__init__` line picking the catalog:
`SEARCH_PAGE_SELECTORS if self.page_type == 'search' else VIEW_PAGE_SELECTORS`. -/
def selectorsForPageType (page_type : String) : SelectorCatalog :=
  if page_type = "search" then SEARCH_PAGE_SELECTORS else VIEW_PAGE_SELECTORS

/-- `LinkedInJobScraper._get_element_text_with_fallbacks`: try the
selectors in order; a located element with whitespace-only text does not
count and the next selector is tried. -/
def get_element_text_with_fallbacks (doc : Doc) : List String → Option Str
  | [] => none
  | sel :: rest =>
      match doc.find sel with
      | none => get_element_text_with_fallbacks doc rest
      | some raw =>
          let text := pyTrim raw
          if text ≠ [] then some text
          else get_element_text_with_fallbacks doc rest

/-- `LinkedInJobScraper._get_element_html_with_fallbacks`: like the text
variant but reading `innerHTML`; `if html and html.strip()` guards both a
null attribute (modelled by `none`) and whitespace-only markup. -/
def get_element_html_with_fallbacks (doc : Doc) : List String → Option Str
  | [] => none
  | sel :: rest =>
      match doc.findHtml sel with
      | none => get_element_html_with_fallbacks doc rest
      | some raw =>
          let html := pyTrim raw
          if html ≠ [] then some html
          else get_element_html_with_fallbacks doc rest

/-- `LinkedInJobScraper._get_multiple_elements_text`: the first selector
matching at least one element with at least one non-empty stripped text
yields the list of those texts; no merging across selectors. -/
def get_multiple_elements_text (doc : Doc) : List String → List Str
  | [] => []
  | sel :: rest =>
      let elements := doc.findAllTexts sel
      if elements ≠ [] then
        let texts := (elements.map pyTrim).filter (· ≠ [])
        if texts ≠ [] then texts else get_multiple_elements_text doc rest
      else get_multiple_elements_text doc rest

/-- `date_selectors` inside `_extract_additional_info`. -/
def date_selectors : List String :=
  [".job-details-jobs-unified-top-card__primary-description-container time",
   ".jobs-unified-top-card__posted-date",
   ".job-details-jobs-unified-top-card__posted-date"]

/-- `job_type_selectors` inside `_extract_additional_info`, reused by the
seniority scan. -/
def job_type_selectors : List String :=
  [".job-details-jobs-unified-top-card__job-insight span",
   ".jobs-unified-top-card__job-insight span"]

/-- The posted-date loop of `_extract_additional_info`: first selector
whose element exists wins, its stripped text is stored (no emptiness
check). -/
def extractPostedDate (doc : Doc) : List String → Option Str
  | [] => none
  | sel :: rest =>
      match doc.find sel with
      | some raw => some (pyTrim raw)
      | none => extractPostedDate doc rest

/-- Keywords of the job-type scan in `_extract_additional_info`. -/
def jobTypeKeywords : List Str :=
  ["full-time".toList, "part-time".toList, "contract".toList, "internship".toList]

/-- Inner element loop of the job-type scan: the first element whose
lowered text contains a job-type keyword, taken verbatim (stripped). -/
def findJobTypeInElems : List Str → Option Str
  | [] => none
  | e :: es =>
      let text := pyTrim e
      if jobTypeKeywords.any (fun k => pyIn k (strLower text)) then some text
      else findJobTypeInElems es

/-- Outer selector loop of the job-type scan in
`_extract_additional_info`. -/
def extractJobType (doc : Doc) : List String → Option Str
  | [] => none
  | sel :: rest =>
      match findJobTypeInElems (doc.findAllTexts sel) with
      | some t => some t
      | none => extractJobType doc rest

/-- `seniority_keywords` of `_extract_additional_info`. -/
def seniorityKeywords : List Str :=
  ["entry level".toList, "associate".toList, "mid-senior".toList,
   "director".toList, "executive".toList]

/-- Stripped texts of the elements of one selector that contain a
seniority keyword (matching is done on the lowered stripped text). -/
def seniorityMatches (elems : List Str) : List Str :=
  (elems.map pyTrim).filter
    (fun t => seniorityKeywords.any (fun k => pyIn k (strLower t)))

/-- The seniority scan of `_extract_additional_info`.  The Python inner
loop keeps overwriting `additional_info["seniority_level"]`, so within the
first selector that has any match the LAST matching element wins. -/
def extractSeniority (doc : Doc) : List String → Option Str
  | [] => none
  | sel :: rest =>
      match (seniorityMatches (doc.findAllTexts sel)).getLast? with
      | some t => some t
      | none => extractSeniority doc rest

/-- The salary markers of `run`'s criteria scan. -/
def salaryMarkers : List Str :=
  ["$".toList, "€".toList, "£".toList, "₹".toList,
   "salary".toList, "compensation".toList, "pay".toList]

/-- The salary loop of `run`: first criterion whose lowered text contains
a currency symbol or salary token. -/
def findSalary : List Str → Option Str
  | [] => none
  | c :: cs =>
      if salaryMarkers.any (fun s => pyIn s (strLower c)) then some c
      else findSalary cs

/-- The `job_data` dictionary assembled by `LinkedInJobScraper.run`.
Fields that `run` stores only when found (`posted_date`, `job_type`,
`seniority_level` from `additional_info`) or that may be `None`
(`company_name`, `location`, `salary_info`, descriptions) are `Option`s. -/
structure JobData where
  job_title : Str
  company_name : Option Str
  location : Option Str
  salary_info : Option Str
  job_criteria : List Str
  job_description_html : Option Str
  job_description_text : Option Str
  url : Str
  scraped_at : Str
  posted_date : Option Str
  job_type : Option Str
  seniority_level : Option Str
deriving DecidableEq

/-- `LinkedInJobScraper.run`: detect the page type, resolve every field
against the selected catalog, classify salary out of the criteria, and
assemble the record — unless the title cannot be resolved, in which case
`None` is returned.  `now` models `datetime.now().strftime(...)`;
scrolling, pane waiting and description expansion are browser effects
without influence on the returned dictionary. -/
def run (job_url : Str) (doc : Doc) (now : Str) : Option JobData :=
  let selectors := selectorsForPageType (detect_page_type job_url)
  match get_element_text_with_fallbacks doc selectors.title with
  | none => none
  | some title =>
      let criteria := get_multiple_elements_text doc selectors.criteria_list
      some { job_title := title
             company_name := get_element_text_with_fallbacks doc selectors.company_name
             location := get_element_text_with_fallbacks doc selectors.location
             salary_info := findSalary criteria
             job_criteria := criteria
             job_description_html :=
               get_element_html_with_fallbacks doc selectors.description_container
             job_description_text :=
               get_element_text_with_fallbacks doc selectors.description_container
             url := job_url
             scraped_at := now
             posted_date := extractPostedDate doc date_selectors
             job_type := extractJobType doc job_type_selectors
             seniority_level := extractSeniority doc job_type_selectors }

/-!
## Listing extractor (`linkedin_job_reporter_ui.py`, `extract_job_listings`)

One job card is read through `card.find_element(...).text` (`find`).  The
nested link-resolution attempts around a matched title element (tag-name
test, child anchor, full-link fallback) are summarised by `findLink`,
giving the href the card yields for the selector that matched the title,
or `none` when every attempt raises.
-/

/-- One job card of the search-results list, abstracted to its queries. -/
structure Card where
  find : String → Option Str
  findLink : String → Option Str

/-- `title_selectors` of `extract_job_listings`. -/
def title_selectors : List String :=
  [".base-search-card__title",
   ".job-card-list__title",
   ".jobs-unified-top-card__job-title",
   ".job-card-container__link",
   "h3 a",
   ".job-card-list__title-link",
   ".job-card-list__title a"]

/-- `company_selectors` of `extract_job_listings`. -/
def company_selectors : List String :=
  [".artdeco-entity-lockup__subtitle",
   ".base-search-card__subtitle",
   ".job-card-container__company-name",
   ".job-card-list__subtitle",
   ".job-card-container__subtitle",
   ".artdeco-entity-lockup__subtitle span",
   "h4",
   ".job-card-list__company-name"]

/-- `location_selectors` of `extract_job_listings`. -/
def location_selectors : List String :=
  [".job-search-card__location",
   ".artdeco-entity-lockup__caption",
   ".job-card-container__metadata-item",
   ".jobs-unified-top-card__bullet",
   ".job-card-container__metadata-wrapper",
   ".job-card-list__metadata",
   ".job-card-container__secondary-description"]

/-- `time_selectors` of `extract_job_listings`. -/
def time_selectors : List String :=
  [".job-card-container__metadata-item time",
   ".jobs-unified-top-card__subtitle-secondary-grouping time",
   ".job-card-list__metadata time",
   "time"]

/-- `desc_selectors` of `extract_job_listings`. -/
def desc_selectors : List String :=
  [".job-card-list__footer-wrapper",
   ".job-card-container__snippet",
   ".job-card-list__snippet"]

/-- Job-title keywords that disqualify a company-name candidate. -/
def companyKeywords : List Str :=
  ["analyst".toList, "engineer".toList, "manager".toList, "developer".toList,
   "specialist".toList, "intern".toList, "associate".toList]

/-- The company-candidate filter of `extract_job_listings`:
`company_text and len(company_text) > 0 and len(company_text) < 100 and
not any(word in company_text.lower() for word in [...])`. -/
def validCompany (t : Str) : Bool :=
  t ≠ [] && t.length < 100 &&
    !(companyKeywords.any (fun w => pyIn w (strLower t)))

/-- Relative-time tokens that disqualify a location candidate. -/
def locationTimeWords : List Str :=
  ["ago".toList, "hour".toList, "day".toList, "week".toList, "month".toList,
   "year".toList, "posted".toList, "within".toList]

/-- The location-candidate filter of `extract_job_listings`:
non-empty and free of relative-time tokens. -/
def validLocation (t : Str) : Bool :=
  t ≠ [] && !(locationTimeWords.any (fun w => pyIn w (strLower t)))

/-- The title loop of `extract_job_listings`: first selector whose
element has non-empty whitespace-collapsed text; the link is resolved for
that same selector. -/
def findTitle (card : Card) : List String → Option (Str × Option Str)
  | [] => none
  | sel :: rest =>
      match card.find sel with
      | none => findTitle card rest
      | some raw =>
          let t := pyNormSpace (pyTrim raw)
          if t ≠ [] then some (t, card.findLink sel)
          else findTitle card rest

/-- The company loop of `extract_job_listings`: first candidate passing
`validCompany`. -/
def findCompany (card : Card) : List String → Option Str
  | [] => none
  | sel :: rest =>
      match card.find sel with
      | none => findCompany card rest
      | some raw =>
          let t := pyNormSpace (pyTrim raw)
          if validCompany t then some t else findCompany card rest

/-- The location loop of `extract_job_listings`: first candidate passing
`validLocation`. -/
def findLocation (card : Card) : List String → Option Str
  | [] => none
  | sel :: rest =>
      match card.find sel with
      | none => findLocation card rest
      | some raw =>
          let t := pyNormSpace (pyTrim raw)
          if validLocation t then some t else findLocation card rest

/-- The posted-time loop of `extract_job_listings`: first selector whose
element exists wins, no emptiness check on its stripped text. -/
def findPostedTime (card : Card) : List String → Option Str
  | [] => none
  | sel :: rest =>
      match card.find sel with
      | some raw => some (pyTrim raw)
      | none => findPostedTime card rest

/-- The description loop of `extract_job_listings`:
`desc_element.text.strip()[:200] + "..."` for the first selector found. -/
def findDescription (card : Card) : List String → Option Str
  | [] => none
  | sel :: rest =>
      match card.find sel with
      | some raw => some ((pyTrim raw).take 200 ++ "...".toList)
      | none => findDescription card rest

/-- One `job_data` dictionary of `extract_job_listings`, also the input
shape of `analyze_job_data` (which reads it with `dict.get`).  `none`
models an absent key. -/
structure Job where
  title : Option Str := none
  job_link : Option Str := none
  company : Option Str := none
  location : Option Str := none
  posted_time : Option Str := none
  description : Option Str := none
  extracted_at : Option Str := none
deriving DecidableEq

/-- The per-card body of `extract_job_listings`: resolve each field with
its selector loop, substituting the sentinels for title, company and
location, and stamp `extracted_at` (`now` models `datetime.now()`). -/
def extract_job (card : Card) (now : Str) : Job :=
  let t := findTitle card title_selectors
  { title := some ((t.map Prod.fst).getD "Title not found".toList)
    job_link := t.bind Prod.snd
    company := some ((findCompany card company_selectors).getD "Company not found".toList)
    location := some ((findLocation card location_selectors).getD "Location not found".toList)
    posted_time := findPostedTime card time_selectors
    description := findDescription card desc_selectors
    extracted_at := some now }

/-- `extract_job_listings`: process the first `max_jobs` cards in page
order (`job_cards[:max_jobs]`), one record per card. -/
def extract_job_listings (cards : List Card) (max_jobs : Nat) (now : Str) :
    List Job :=
  (cards.take max_jobs).map (fun card => extract_job card now)

/-!
## Aggregator (`linkedin_job_reporter_ui.py`, `analyze_job_data`)

A `collections.Counter` is an insertion-ordered mapping; it is modelled as
an association list whose keys appear in first-insertion order.
`Counter.most_common(10)` is `heapq.nlargest(10, items, key=count)`,
documented equivalent to a stable descending sort followed by `take 10`.
-/

/-- `counter[key] += 1`: bump the key in place, or append it with count 1
(insertion order of a Python dict). -/
def counterAdd (c : List (Str × Nat)) (k : Str) : List (Str × Nat) :=
  match c with
  | [] => [(k, 1)]
  | (a, n) :: t => if a = k then (a, n + 1) :: t else (a, n) :: counterAdd t k

/-- Insert an entry in front of the first strictly-smaller count, behind
every earlier entry of equal count (the stable descending order of
`heapq.nlargest`). -/
def insertByCountDesc (x : Str × Nat) : List (Str × Nat) → List (Str × Nat)
  | [] => [x]
  | y :: ys => if y.2 < x.2 then x :: y :: ys else y :: insertByCountDesc x ys

/-- Stable sort of counter entries by descending count. -/
def sortByCountDesc (c : List (Str × Nat)) : List (Str × Nat) :=
  c.foldl (fun acc x => insertByCountDesc x acc) []

/-- `Counter.most_common(n)`. -/
def most_common (c : List (Str × Nat)) (n : Nat) : List (Str × Nat) :=
  (sortByCountDesc c).take n

/-- The body of the company-counting loop of `analyze_job_data`:
`company = job.get('company', 'Unknown')`, skipping the sentinel. -/
def companyStep (c : List (Str × Nat)) (j : Job) : List (Str × Nat) :=
  if j.company.getD "Unknown".toList ≠ "Company not found".toList then
    counterAdd c (j.company.getD "Unknown".toList)
  else c

/-- The company-counting loop of `analyze_job_data`. -/
def companyCounter (jobs : List Job) : List (Str × Nat) :=
  jobs.foldl companyStep []

/-- The location-counting loop of `analyze_job_data`. -/
def locationCounter (jobs : List Job) : List (Str × Nat) :=
  jobs.foldl
    (fun c j =>
      let location := j.location.getD "Unknown".toList
      if location ≠ "Location not found".toList then counterAdd c location else c)
    []

/-- The posting-time loop of `analyze_job_data`:
`job.get('posted_time', 'Unknown')`, counted whenever truthy — a record
without the key is counted under `"Unknown"`. -/
def timeCounter (jobs : List Job) : List (Str × Nat) :=
  jobs.foldl
    (fun c j =>
      let posted_time := j.posted_time.getD "Unknown".toList
      if posted_time ≠ [] then counterAdd c posted_time else c)
    []

/-- The keyword vocabulary of `analyze_job_data`. -/
def analyzeKeywords : List Str :=
  ["analyst".toList, "senior".toList, "junior".toList, "manager".toList,
   "engineer".toList, "developer".toList, "specialist".toList,
   "lead".toList, "principal".toList, "director".toList]

/-- The body of the title-keyword loop of `analyze_job_data`: with
`title = job.get('title', '').lower()`, for a record whose lowered title
is non-empty and not the sentinel, bump every vocabulary keyword the
title contains. -/
def keywordStep (c : List (Str × Nat)) (j : Job) : List (Str × Nat) :=
  if strLower (j.title.getD []) ≠ [] ∧
      strLower (j.title.getD []) ≠ "title not found".toList then
    analyzeKeywords.foldl
      (fun c2 k =>
        if pyIn k (strLower (j.title.getD [])) then counterAdd c2 k else c2) c
  else c

/-- The title-keyword loop of `analyze_job_data`. -/
def keywordCounter (jobs : List Job) : List (Str × Nat) :=
  jobs.foldl keywordStep []

/-- The `analysis` dictionary of `analyze_job_data` in its populated
shape.  `extraction_date` stores `datetime.now().strftime(...)`. -/
structure Analysis where
  total_jobs : Nat
  extraction_date : Str
  companies : List (Str × Nat)
  locations : List (Str × Nat)
  posting_times : List (Str × Nat)
  title_keywords : List (Str × Nat)
  unique_companies : Nat
  unique_locations : Nat
deriving DecidableEq

/-- `analyze_job_data`: `if not jobs: return {}` (the empty dictionary is
modelled by `none`), otherwise the populated analysis. -/
def analyze_job_data (jobs : List Job) (now : Str) : Option Analysis :=
  if jobs = [] then none
  else
    some { total_jobs := jobs.length
           extraction_date := now
           companies := most_common (companyCounter jobs) 10
           locations := most_common (locationCounter jobs) 10
           posting_times := most_common (timeCounter jobs) 10
           title_keywords := most_common (keywordCounter jobs) 10
           unique_companies := (companyCounter jobs).length
           unique_locations := (locationCounter jobs).length }

/-- The statistics fields of an analysis: everything except the
`extraction_date` stamp. -/
structure AnalysisStats where
  total_jobs : Nat
  companies : List (Str × Nat)
  locations : List (Str × Nat)
  posting_times : List (Str × Nat)
  title_keywords : List (Str × Nat)
  unique_companies : Nat
  unique_locations : Nat
deriving DecidableEq

/-- Project an analysis onto its statistics fields. -/
def statsOf (a : Analysis) : AnalysisStats :=
  { total_jobs := a.total_jobs
    companies := a.companies
    locations := a.locations
    posting_times := a.posting_times
    title_keywords := a.title_keywords
    unique_companies := a.unique_companies
    unique_locations := a.unique_locations }

/-!
## Concrete fixtures used by counterexamples and witnesses
-/

/-- A job card none of whose selectors matches anything. -/
def emptyCard : Card := { find := fun _ => none, findLink := fun _ => none }

/-- A card whose first company selector yields a 100-character name and
whose other selectors match nothing. -/
def card100 : Card :=
  { find := fun sel =>
      if sel = ".artdeco-entity-lockup__subtitle" then
        some (List.replicate 100 'a')
      else none
    findLink := fun _ => none }

/-- A record with a title and a company, the other keys absent. -/
def titleCompanyJob (t c : String) : Job :=
  { title := some t.toList, company := some c.toList }

/-- The spec's end-to-end scenario records. -/
def scenarioJobs : List Job :=
  [titleCompanyJob "Senior ML Engineer" "Acme",
   titleCompanyJob "ML Engineer" "Acme",
   titleCompanyJob "Junior Data Analyst" "Beta"]

/-- Records whose companies are A,B,A,C,B,A in that order. -/
def abacbaJobs : List Job :=
  [titleCompanyJob "T" "A", titleCompanyJob "T" "B", titleCompanyJob "T" "A",
   titleCompanyJob "T" "C", titleCompanyJob "T" "B", titleCompanyJob "T" "A"]

/-- A record carrying both "not found" sentinels and no posted time. -/
def sentinelJob : Job :=
  { title := some "X".toList,
    company := some "Company not found".toList,
    location := some "Location not found".toList }

/-- A fixed timestamp for concrete runs. -/
def now0 : Str := "2025-01-01 12:00:00".toList

/-!
## Claim C1 — field resolver
-/

/-- Claim C1: for every ordered selector list, the field resolver returns
the stripped text of the first selector whose located element yields
non-empty text; a present element with whitespace-only text is skipped;
`none` when every selector is exhausted. -/
theorem resolver_returns_first_nonempty_text (doc : Doc) (selectors : List String) :
    get_element_text_with_fallbacks doc selectors =
      (selectors.filterMap (fun sel =>
        (doc.find sel).bind (fun raw =>
          if pyTrim raw = [] then none else some (pyTrim raw)))).head? := by
  induction selectors with
  | nil => rfl
  | cons sel rest ih =>
      simp only [get_element_text_with_fallbacks, List.filterMap_cons]
      cases h : doc.find sel with
      | none => simpa using ih
      | some raw =>
          by_cases ht : pyTrim raw = []
          · simpa [ht] using ih
          · simp [ht]

/-!
## Claim C2 — record extractor title gate
-/

/-- Claim C2: `run` is total from document to optional record; the title
of the produced record is exactly the resolver's answer for the title
field, and `run` returns `none` precisely when the title does not
resolve, regardless of every other field. -/
theorem record_extractor_title_gate (job_url : Str) (doc : Doc) (now : Str) :
    (run job_url doc now).map JobData.job_title =
      get_element_text_with_fallbacks doc
        (selectorsForPageType (detect_page_type job_url)).title ∧
    ((run job_url doc now).isNone ↔
      get_element_text_with_fallbacks doc
        (selectorsForPageType (detect_page_type job_url)).title = none) := by
  cases h : get_element_text_with_fallbacks doc
      (selectorsForPageType (detect_page_type job_url)).title with
  | none => simp [run, h]
  | some t => simp [run, h]

/-!
## Claim C3 — page-type detection
-/

/-- Claim C3 counterexample: on an address containing neither marker the
detector itself returns the Search page type, not a distinct Unknown
value — the codomain never carries an `unknown` tag. -/
theorem detect_page_type_no_unknown_value :
    detect_page_type "https://www.linkedin.com/feed/".toList = "search" ∧
    detect_page_type "https://www.linkedin.com/feed/".toList ≠ "unknown" := by
  decide

/-- Claim C3 (amended): an address containing `/jobs/search/` is Search;
one containing `/jobs/view/` and not the search marker is View; any other
address is classified Search directly, so the search selector catalog is
used. -/
theorem detect_page_type_marker_cases (url : Str) :
    (pyIn searchMarker url = true → detect_page_type url = "search") ∧
    (pyIn searchMarker url = false → pyIn viewMarker url = true →
      detect_page_type url = "view") ∧
    (pyIn searchMarker url = false → pyIn viewMarker url = false →
      detect_page_type url = "search" ∧
      selectorsForPageType (detect_page_type url) = SEARCH_PAGE_SELECTORS) := by
  refine ⟨fun h => ?_, fun h1 h2 => ?_, fun h1 h2 => ?_⟩
  · unfold detect_page_type
    rw [if_pos h]
  · unfold detect_page_type
    rw [if_neg (by rw [h1]; exact Bool.false_ne_true), if_pos h2]
  · have hd : detect_page_type url = "search" := by
      unfold detect_page_type
      rw [if_neg (by rw [h1]; exact Bool.false_ne_true),
        if_neg (by rw [h2]; exact Bool.false_ne_true)]
    refine ⟨hd, ?_⟩
    rw [hd]
    rfl

/-- Claim C3 witness: the three marker cases at concrete addresses. -/
theorem detect_page_type_marker_cases_app :
    detect_page_type "https://www.linkedin.com/jobs/search/?keywords=ML".toList = "search" ∧
    detect_page_type "https://www.linkedin.com/jobs/view/4255281290/".toList = "view" ∧
    (detect_page_type "https://www.linkedin.com/company/acme".toList = "search" ∧
      selectorsForPageType
        (detect_page_type "https://www.linkedin.com/company/acme".toList) =
        SEARCH_PAGE_SELECTORS) :=
  ⟨(detect_page_type_marker_cases _).1 (by decide),
   (detect_page_type_marker_cases _).2.1 (by decide) (by decide),
   (detect_page_type_marker_cases _).2.2 (by decide) (by decide)⟩

/-!
## Claim C4 — company-name validation
-/

/-- `validCompany` unfolded into the three checks the claim names, except
that the length bound of the code is strict. -/
theorem validCompany_iff (t : Str) :
    validCompany t = true ↔
      (t ≠ [] ∧ t.length < 100 ∧
        ∀ w ∈ companyKeywords, pyIn w (strLower t) = false) := by
  unfold validCompany
  rw [Bool.and_eq_true, Bool.and_eq_true, decide_eq_true_eq, decide_eq_true_eq,
    Bool.not_eq_true', List.any_eq_false]
  simp only [Bool.not_eq_true]
  exact and_assoc

/-- First-accepted-candidate form of the company loop, for any selector
list, with the acceptance condition spelt out as the three checks. -/
theorem findCompany_first_passing (card : Card) (sels : List String) :
    findCompany card sels =
      (sels.filterMap (fun sel =>
        (card.find sel).bind (fun raw =>
          if pyNormSpace (pyTrim raw) ≠ [] ∧
              (pyNormSpace (pyTrim raw)).length < 100 ∧
              (∀ w ∈ companyKeywords,
                pyIn w (strLower (pyNormSpace (pyTrim raw))) = false)
          then some (pyNormSpace (pyTrim raw)) else none))).head? := by
  induction sels with
  | nil => rfl
  | cons sel rest ih =>
      simp only [findCompany, List.filterMap_cons]
      cases h : card.find sel with
      | none => simpa using ih
      | some raw =>
          simp only [Option.some_bind]
          by_cases hv : validCompany (pyNormSpace (pyTrim raw)) = true
          · rw [if_pos hv, if_pos ((validCompany_iff _).mp hv)]
            simp
          · rw [if_neg (fun hc => hv hc),
              if_neg (fun hc => hv ((validCompany_iff _).mpr hc))]
            simpa using ih

/-- Claim C4 counterexample: a candidate of exactly 100 characters is
non-empty, does not exceed 100 characters, and contains no job-title
keyword, yet the code rejects it (its bound is strict) and falls back to
the sentinel. -/
theorem company_validation_rejects_length_100 :
    List.replicate 100 'a' ≠ ([] : Str) ∧
    (List.replicate 100 'a').length ≤ 100 ∧
    (companyKeywords.all fun w => !(pyIn w (strLower (List.replicate 100 'a')))) = true ∧
    findCompany card100 company_selectors = none ∧
    (extract_job card100 now0).company = some "Company not found".toList := by
  decide

/-- Claim C4 (amended): the company loop accepts the first candidate, in
selector order, that is non-empty, has STRICTLY fewer than 100
characters, and contains none of the job-title keywords; rejected
candidates are skipped, and the sentinel is substituted when no candidate
passes. -/
theorem company_validation_first_valid (card : Card) (now : Str) :
    findCompany card company_selectors =
      (company_selectors.filterMap (fun sel =>
        (card.find sel).bind (fun raw =>
          if pyNormSpace (pyTrim raw) ≠ [] ∧
              (pyNormSpace (pyTrim raw)).length < 100 ∧
              (∀ w ∈ companyKeywords,
                pyIn w (strLower (pyNormSpace (pyTrim raw))) = false)
          then some (pyNormSpace (pyTrim raw)) else none))).head? ∧
    (extract_job card now).company =
      some ((findCompany card company_selectors).getD "Company not found".toList) :=
  ⟨findCompany_first_passing card company_selectors, rfl⟩

/-!
## Claim C5 — sentinel exclusion in the aggregator
-/

/-- Unfolding equation of `counterAdd` on a cons cell. -/
theorem counterAdd_cons (b : Str) (m : Nat) (t : List (Str × Nat)) (k : Str) :
    counterAdd ((b, m) :: t) k =
      if b = k then (b, m + 1) :: t else (b, m) :: counterAdd t k := rfl

/-- A key occurs in `counterAdd c k` exactly when it is `k` or already a
key of `c`. -/
theorem counterAdd_key_iff (c : List (Str × Nat)) (k a : Str) :
    (∃ n, (a, n) ∈ counterAdd c k) ↔ a = k ∨ ∃ n, (a, n) ∈ c := by
  induction c with
  | nil => simp [counterAdd]
  | cons p t ih =>
      obtain ⟨b, m⟩ := p
      rw [counterAdd_cons]
      by_cases hb : b = k
      · rw [if_pos hb]
        simp only [List.mem_cons, Prod.mk.injEq]
        constructor
        · rintro ⟨n, ⟨rfl, -⟩ | hn⟩
          · exact Or.inl hb
          · exact Or.inr ⟨n, Or.inr hn⟩
        · rintro (rfl | ⟨n, ⟨rfl, -⟩ | hn⟩)
          · exact ⟨m + 1, Or.inl ⟨hb.symm, rfl⟩⟩
          · exact ⟨m + 1, Or.inl ⟨rfl, rfl⟩⟩
          · exact ⟨n, Or.inr hn⟩
      · rw [if_neg hb]
        simp only [List.mem_cons, Prod.mk.injEq]
        constructor
        · rintro ⟨n, ⟨rfl, -⟩ | hn⟩
          · exact Or.inr ⟨m, Or.inl ⟨rfl, rfl⟩⟩
          · rcases ih.mp ⟨n, hn⟩ with h | ⟨n2, h2⟩
            · exact Or.inl h
            · exact Or.inr ⟨n2, Or.inr h2⟩
        · rintro (rfl | ⟨n, ⟨rfl, -⟩ | hn⟩)
          · rcases ih.mpr (Or.inl rfl) with ⟨n2, h2⟩
            exact ⟨n2, Or.inr h2⟩
          · exact ⟨m, Or.inl ⟨rfl, rfl⟩⟩
          · rcases ih.mpr (Or.inr ⟨n, hn⟩) with ⟨n2, h2⟩
            exact ⟨n2, Or.inr h2⟩

/-- The keys of the full company table are exactly the non-sentinel
company values occurring among the records. -/
theorem companyCounter_key_iff (jobs : List Job) (a : Str) :
    (∃ n, (a, n) ∈ companyCounter jobs) ↔
      (a ≠ "Company not found".toList ∧
        a ∈ jobs.map (fun j => j.company.getD "Unknown".toList)) := by
  have key : ∀ (js : List Job) (init : List (Str × Nat)),
      (∃ n, (a, n) ∈ js.foldl companyStep init) ↔
        ((∃ n, (a, n) ∈ init) ∨ (a ≠ "Company not found".toList ∧
          a ∈ js.map (fun j => j.company.getD "Unknown".toList))) := by
    intro js
    induction js with
    | nil => intro init; simp
    | cons j t ih =>
        intro init
        simp only [List.foldl_cons, List.map_cons, List.mem_cons]
        rw [ih]
        by_cases hj : j.company.getD "Unknown".toList = "Company not found".toList
        · have hstep : companyStep init j = init := by
            unfold companyStep
            rw [if_neg (fun hc => hc hj)]
          rw [hstep]
          constructor
          · rintro (h | h)
            · exact Or.inl h
            · exact Or.inr ⟨h.1, Or.inr h.2⟩
          · rintro (h | ⟨hne, rfl | hmem⟩)
            · exact Or.inl h
            · exact absurd hj hne
            · exact Or.inr ⟨hne, hmem⟩
        · have hstep : companyStep init j =
              counterAdd init (j.company.getD "Unknown".toList) := by
            unfold companyStep
            rw [if_pos hj]
          rw [hstep, counterAdd_key_iff]
          constructor
          · rintro ((rfl | h) | h)
            · exact Or.inr ⟨hj, Or.inl rfl⟩
            · exact Or.inl h
            · exact Or.inr ⟨h.1, Or.inr h.2⟩
          · rintro (h | ⟨hne, rfl | hmem⟩)
            · exact Or.inl (Or.inr h)
            · exact Or.inl (Or.inl rfl)
            · exact Or.inr ⟨hne, hmem⟩
  simpa [companyCounter] using key jobs []

/-- The analysis of one non-sentinel record, used to witness the
aggregator claims. -/
def analysisA0 : Analysis :=
  { total_jobs := 1
    extraction_date := now0
    companies := [("A".toList, 1)]
    locations := [("Unknown".toList, 1)]
    posting_times := [("Unknown".toList, 1)]
    title_keywords := []
    unique_companies := 1
    unique_locations := 1 }

/-- Claim C5 counterexample: a record with no posted time is counted
under the key `"Unknown"` in the posting-times table instead of being
excluded — there is no posted-time sentinel exclusion in the code, while
the company and location sentinels are excluded. -/
theorem posting_time_missing_counted_as_unknown :
    sentinelJob.posted_time = none ∧
    (analyze_job_data [sentinelJob] now0).map Analysis.posting_times
      = some [("Unknown".toList, 1)] ∧
    (analyze_job_data [sentinelJob] now0).map Analysis.companies = some [] ∧
    (analyze_job_data [sentinelJob] now0).map Analysis.locations = some [] ∧
    (analyze_job_data [sentinelJob] now0).map Analysis.unique_companies = some 0 := by
  decide

/-- Claim C5 (amended): appending a record whose company (resp. location)
is the sentinel leaves the company (resp. location) table unchanged;
appending a record with NO posted time adds a count under `"Unknown"` to
the posting-times table (only the empty posted-time value is excluded);
the unique counts are the lengths of the full non-truncated tables, whose
keys are exactly the non-sentinel values occurring in the records. -/
theorem aggregator_sentinel_exclusion (jobs : List Job) (j : Job) (now : Str) :
    (j.company = some "Company not found".toList →
      companyCounter (jobs ++ [j]) = companyCounter jobs) ∧
    (j.location = some "Location not found".toList →
      locationCounter (jobs ++ [j]) = locationCounter jobs) ∧
    (j.posted_time = none →
      timeCounter (jobs ++ [j]) = counterAdd (timeCounter jobs) "Unknown".toList) ∧
    (∀ A, analyze_job_data jobs now = some A →
      A.unique_companies = (companyCounter jobs).length ∧
      A.unique_locations = (locationCounter jobs).length) ∧
    (∀ a : Str, (∃ n, (a, n) ∈ companyCounter jobs) ↔
      (a ≠ "Company not found".toList ∧
        a ∈ jobs.map (fun j2 => j2.company.getD "Unknown".toList))) := by
  refine ⟨?_, ?_, ?_, ?_, fun a => companyCounter_key_iff jobs a⟩
  · intro h
    simp [companyCounter, List.foldl_append, companyStep, h]
  · intro h
    simp [locationCounter, List.foldl_append, h]
  · intro h
    have hu : "Unknown".toList ≠ ([] : Str) := by decide
    simp [timeCounter, List.foldl_append, h, hu]
  · intro A hA
    have hj : ¬ jobs = [] := by
      intro h0
      rw [h0] at hA
      exact Option.noConfusion hA
    unfold analyze_job_data at hA
    rw [if_neg hj] at hA
    simp only [Option.some.injEq] at hA
    subst hA
    exact ⟨rfl, rfl⟩

/-- Claim C5 witness: the amended statement applied to one concrete
record list, a concrete sentinel-carrying record, and the concrete
analysis value. -/
theorem aggregator_sentinel_exclusion_app :
    companyCounter ([titleCompanyJob "T" "A"] ++ [sentinelJob])
        = companyCounter [titleCompanyJob "T" "A"] ∧
    locationCounter ([titleCompanyJob "T" "A"] ++ [sentinelJob])
        = locationCounter [titleCompanyJob "T" "A"] ∧
    timeCounter ([titleCompanyJob "T" "A"] ++ [sentinelJob])
        = counterAdd (timeCounter [titleCompanyJob "T" "A"]) "Unknown".toList ∧
    (analysisA0.unique_companies
        = (companyCounter [titleCompanyJob "T" "A"]).length ∧
      analysisA0.unique_locations
        = (locationCounter [titleCompanyJob "T" "A"]).length) ∧
    (∃ n, ("A".toList, n) ∈ companyCounter [titleCompanyJob "T" "A"]) :=
  have h := aggregator_sentinel_exclusion [titleCompanyJob "T" "A"] sentinelJob now0
  ⟨h.1 (by decide), h.2.1 (by decide), h.2.2.1 (by decide),
   h.2.2.2.1 analysisA0 (by decide),
   (h.2.2.2.2 "A".toList).mpr ⟨by decide, by decide⟩⟩

/-!
## Claim C6 — top-K views
-/

/-- Members of `insertByCountDesc x l` are `x` or members of `l`. -/
theorem mem_insertByCountDesc {x z : Str × Nat} {l : List (Str × Nat)}
    (h : z ∈ insertByCountDesc x l) : z = x ∨ z ∈ l := by
  induction l with
  | nil => simpa [insertByCountDesc] using h
  | cons y ys ih =>
      unfold insertByCountDesc at h
      by_cases hc : y.2 < x.2
      · rw [if_pos hc] at h
        rcases List.mem_cons.mp h with rfl | h2
        · exact Or.inl rfl
        · exact Or.inr h2
      · rw [if_neg hc] at h
        rcases List.mem_cons.mp h with rfl | h2
        · exact Or.inr (List.mem_cons_self _ _)
        · rcases ih h2 with rfl | h3
          · exact Or.inl rfl
          · exact Or.inr (List.mem_cons_of_mem _ h3)

/-- Inserting preserves the descending-count order. -/
theorem pairwise_insertByCountDesc (x : Str × Nat) (l : List (Str × Nat))
    (h : l.Pairwise (fun p q => q.2 ≤ p.2)) :
    (insertByCountDesc x l).Pairwise (fun p q => q.2 ≤ p.2) := by
  induction l with
  | nil => simp [insertByCountDesc]
  | cons y ys ih =>
      rcases List.pairwise_cons.mp h with ⟨hy, hys⟩
      unfold insertByCountDesc
      by_cases hc : y.2 < x.2
      · rw [if_pos hc]
        refine List.pairwise_cons.mpr ⟨?_, h⟩
        intro z hz
        rcases List.mem_cons.mp hz with rfl | hz2
        · exact le_of_lt hc
        · exact le_trans (hy z hz2) (le_of_lt hc)
      · rw [if_neg hc]
        refine List.pairwise_cons.mpr ⟨?_, ih hys⟩
        intro z hz
        rcases mem_insertByCountDesc hz with rfl | hz2
        · exact le_of_not_lt hc
        · exact hy z hz2

/-- The stable sort of the aggregator is sorted by descending count. -/
theorem pairwise_sortByCountDesc (c : List (Str × Nat)) :
    (sortByCountDesc c).Pairwise (fun p q => q.2 ≤ p.2) := by
  have key : ∀ (l acc : List (Str × Nat)),
      acc.Pairwise (fun p q => q.2 ≤ p.2) →
      (l.foldl (fun a x => insertByCountDesc x a) acc).Pairwise
        (fun p q => q.2 ≤ p.2) := by
    intro l
    induction l with
    | nil => intro acc h; simpa using h
    | cons x xs ih => intro acc h; exact ih _ (pairwise_insertByCountDesc x acc h)
  exact key c [] (by simp)

/-- Inserting into a sorted list puts the new entry after every earlier
entry of the same count. -/
theorem filter_insertByCountDesc (c : Nat) (x : Str × Nat) (l : List (Str × Nat))
    (h : l.Pairwise (fun p q => q.2 ≤ p.2)) :
    (insertByCountDesc x l).filter (fun y => y.2 = c) =
      if x.2 = c then l.filter (fun y => y.2 = c) ++ [x]
      else l.filter (fun y => y.2 = c) := by
  induction l with
  | nil =>
      by_cases hx : x.2 = c <;> simp [insertByCountDesc, hx]
  | cons y ys ih =>
      rcases List.pairwise_cons.mp h with ⟨hy, hys⟩
      unfold insertByCountDesc
      by_cases hc : y.2 < x.2
      · rw [if_pos hc]
        by_cases hx : x.2 = c
        · have hnil : (y :: ys).filter (fun z => z.2 = c) = [] := by
            rw [List.filter_eq_nil_iff]
            intro z hz
            have hzc : z.2 < c := by
              rcases List.mem_cons.mp hz with rfl | hz2
              · omega
              · exact lt_of_le_of_lt (hy z hz2) (hx ▸ hc)
            simp only [decide_eq_true_eq]
            omega
          simp [List.filter_cons, hx, hnil]
        · simp [List.filter_cons, hx]
      · rw [if_neg hc]
        by_cases hyc : y.2 = c <;> by_cases hx : x.2 = c <;>
          simp [List.filter_cons, hyc, hx, ih hys]

/-- The aggregator's sort is stable: entries of any fixed count keep
their relative order from the frequency table. -/
theorem filter_sortByCountDesc (l : List (Str × Nat)) (c : Nat) :
    (sortByCountDesc l).filter (fun y => y.2 = c) =
      l.filter (fun y => y.2 = c) := by
  have key : ∀ (l acc : List (Str × Nat)),
      acc.Pairwise (fun p q => q.2 ≤ p.2) →
      (l.foldl (fun a x => insertByCountDesc x a) acc).filter (fun y => y.2 = c) =
        acc.filter (fun y => y.2 = c) ++ l.filter (fun y => y.2 = c) := by
    intro l
    induction l with
    | nil => intro acc h; simp
    | cons x xs ih =>
        intro acc h
        simp only [List.foldl_cons]
        rw [ih _ (pairwise_insertByCountDesc x acc h),
          filter_insertByCountDesc c x acc h]
        by_cases hx : x.2 = c
        · rw [if_pos hx]
          simp [List.filter_cons, hx]
        · rw [if_neg hx]
          simp [List.filter_cons, hx]
  simpa [sortByCountDesc] using key l [] (by simp)

/-- Claim C6: each top view of the analysis has at most 10 entries and is
in descending count order; ties keep the frequency-table (first-seen)
order because the sort is stable; on companies A,B,A,C,B,A the top list
is exactly [A 3, B 2, C 1]. -/
theorem aggregator_topk_bounded_sorted_stable :
    (∀ (jobs : List Job) (now : Str) (A : Analysis),
      analyze_job_data jobs now = some A →
        (A.companies.length ≤ 10 ∧ A.locations.length ≤ 10 ∧
          A.posting_times.length ≤ 10 ∧ A.title_keywords.length ≤ 10) ∧
        (A.companies.Pairwise (fun p q => q.2 ≤ p.2) ∧
          A.locations.Pairwise (fun p q => q.2 ≤ p.2) ∧
          A.posting_times.Pairwise (fun p q => q.2 ≤ p.2) ∧
          A.title_keywords.Pairwise (fun p q => q.2 ≤ p.2))) ∧
    (∀ (c : List (Str × Nat)) (k : Nat),
      (sortByCountDesc c).filter (fun y => y.2 = k) =
        c.filter (fun y => y.2 = k)) ∧
    (analyze_job_data abacbaJobs now0).map Analysis.companies
      = some [("A".toList, 3), ("B".toList, 2), ("C".toList, 1)] := by
  refine ⟨?_, fun c k => filter_sortByCountDesc c k, by decide⟩
  intro jobs now A hA
  have hj : ¬ jobs = [] := fun h0 => by
    rw [h0] at hA
    exact Option.noConfusion hA
  unfold analyze_job_data at hA
  rw [if_neg hj] at hA
  simp only [Option.some.injEq] at hA
  subst hA
  constructor
  · refine ⟨?_, ?_, ?_, ?_⟩ <;>
      · show (most_common _ 10).length ≤ 10
        unfold most_common
        rw [List.length_take]
        exact min_le_left _ _
  · refine ⟨?_, ?_, ?_, ?_⟩ <;>
      · show (most_common _ 10).Pairwise _
        unfold most_common
        exact (pairwise_sortByCountDesc _).sublist (List.take_sublist _ _)

/-- Claim C6 witness: the bounded-and-sorted statement applied to a
concrete record list and its concrete analysis. -/
theorem aggregator_topk_app :
    (analysisA0.companies.length ≤ 10 ∧ analysisA0.locations.length ≤ 10 ∧
      analysisA0.posting_times.length ≤ 10 ∧
      analysisA0.title_keywords.length ≤ 10) ∧
    (analysisA0.companies.Pairwise (fun p q => q.2 ≤ p.2) ∧
      analysisA0.locations.Pairwise (fun p q => q.2 ≤ p.2) ∧
      analysisA0.posting_times.Pairwise (fun p q => q.2 ≤ p.2) ∧
      analysisA0.title_keywords.Pairwise (fun p q => q.2 ≤ p.2)) :=
  aggregator_topk_bounded_sorted_stable.1 [titleCompanyJob "T" "A"] now0
    analysisA0 (by decide)

/-!
## Claim C7 — title-keyword aggregation
-/

/-- Keys produced by the inner vocabulary fold come from the initial
table or from the scanned keyword list. -/
theorem inner_fold_keys (title : Str) (ks : List Str) (init : List (Str × Nat))
    (a : Str) (n : Nat)
    (h : (a, n) ∈ ks.foldl
      (fun c2 k => if pyIn k title then counterAdd c2 k else c2) init) :
    (∃ m, (a, m) ∈ init) ∨ a ∈ ks := by
  induction ks generalizing init with
  | nil => exact Or.inl ⟨n, h⟩
  | cons k kt ih =>
      simp only [List.foldl_cons] at h
      by_cases hk : pyIn k title = true
      · rw [if_pos hk] at h
        rcases ih (counterAdd init k) h with ⟨m, hm⟩ | hks
        · rcases (counterAdd_key_iff init k a).mp ⟨m, hm⟩ with rfl | hin
          · exact Or.inr (List.mem_cons_self _ _)
          · exact Or.inl hin
        · exact Or.inr (List.mem_cons_of_mem _ hks)
      · rw [if_neg hk] at h
        rcases ih init h with hin | hks
        · exact Or.inl hin
        · exact Or.inr (List.mem_cons_of_mem _ hks)

/-- Every key of the title-keyword table belongs to the fixed
vocabulary. -/
theorem keywordCounter_key_vocab (jobs : List Job) (a : Str) (n : Nat)
    (h : (a, n) ∈ keywordCounter jobs) : a ∈ analyzeKeywords := by
  have key : ∀ (js : List Job) (init : List (Str × Nat)) (n : Nat),
      (a, n) ∈ js.foldl keywordStep init →
      (∃ m, (a, m) ∈ init) ∨ a ∈ analyzeKeywords := by
    intro js
    induction js with
    | nil => intro init n h; exact Or.inl ⟨n, h⟩
    | cons j t ih =>
        intro init n h
        simp only [List.foldl_cons] at h
        rcases ih (keywordStep init j) n h with ⟨m, hm⟩ | hv
        · unfold keywordStep at hm
          split at hm
          · exact inner_fold_keys (strLower (j.title.getD [])) analyzeKeywords
              init a m hm
          · exact Or.inl ⟨m, hm⟩
        · exact Or.inr hv
  rcases key jobs [] n h with ⟨m, hm⟩ | hv
  · exact absurd hm (List.not_mem_nil _)
  · exact hv

/-- Claim C7 counterexample: on the three-record scenario the code's
title-keyword table also counts "engineer" (twice) and "analyst" (once),
because both belong to the scanned vocabulary — it is not the claimed
{senior 1, junior 1} in either key order. -/
theorem title_keywords_scenario_mismatch :
    (analyze_job_data scenarioJobs now0).map Analysis.title_keywords
      = some [("engineer".toList, 2), ("senior".toList, 1),
              ("analyst".toList, 1), ("junior".toList, 1)] ∧
    ((analyze_job_data scenarioJobs now0).map Analysis.title_keywords
      ≠ some [("senior".toList, 1), ("junior".toList, 1)]) ∧
    ((analyze_job_data scenarioJobs now0).map Analysis.title_keywords
      ≠ some [("junior".toList, 1), ("senior".toList, 1)]) := by
  decide

/-- Claim C7 (amended): the scan counts each title once per vocabulary
keyword it contains, only vocabulary keywords occur as keys, and on the
scenario records the result is titleKeywords {engineer 2, senior 1,
analyst 1, junior 1}, companies {Acme 2, Beta 1}, uniqueCompanies 2. -/
theorem title_keywords_scenario_actual :
    (∀ (jobs : List Job) (a : Str) (n : Nat),
      (a, n) ∈ keywordCounter jobs → a ∈ analyzeKeywords) ∧
    (analyze_job_data scenarioJobs now0).map Analysis.title_keywords
      = some [("engineer".toList, 2), ("senior".toList, 1),
              ("analyst".toList, 1), ("junior".toList, 1)] ∧
    (analyze_job_data scenarioJobs now0).map Analysis.companies
      = some [("Acme".toList, 2), ("Beta".toList, 1)] ∧
    (analyze_job_data scenarioJobs now0).map Analysis.unique_companies
      = some 2 :=
  ⟨fun jobs a n h => keywordCounter_key_vocab jobs a n h,
   by decide, by decide, by decide⟩

/-- Claim C7 witness: the vocabulary-key property applied to the concrete
scenario table. -/
theorem title_keywords_vocab_app : "engineer".toList ∈ analyzeKeywords :=
  title_keywords_scenario_actual.1 scenarioJobs "engineer".toList 2 (by decide)

/-!
## Claim C8 — determinism of the aggregator
-/

/-- Claim C8 counterexample: the analysis dictionary contains
`extraction_date`, read from the wall clock, so two runs over the same
records at different instants yield different outputs. -/
theorem analysis_differs_with_clock :
    analyze_job_data scenarioJobs "2025-01-01 00:00:00".toList ≠
      analyze_job_data scenarioJobs "2025-01-01 00:00:01".toList := by
  decide

/-- Claim C8 (amended): every statistics field of the analysis — all of
them except the `extraction_date` stamp — is a pure function of the
record sequence, identical across runs at any two instants. -/
theorem analysis_stats_clock_independent (jobs : List Job) (t1 t2 : Str) :
    (analyze_job_data jobs t1).map statsOf
      = (analyze_job_data jobs t2).map statsOf := by
  by_cases h : jobs = [] <;> simp [analyze_job_data, h, statsOf]

/-!
## Claim C9 — empty input
-/

/-- Claim C9: on the empty record sequence `analyze_job_data` returns the
empty dictionary (modelled by `none`) rather than a populated analysis
with zero totals. -/
theorem analyze_empty_returns_empty (now : Str) :
    analyze_job_data [] now = none := rfl

/-!
## Claim C10 — shape of the extracted listing records
-/

/-- Claim C10: the listing extractor emits one record per processed card,
at most `max_jobs` of them and in card order; every record carries the
title, company and location keys (falling back to the field sentinels),
the extraction timestamp, and exactly the posted-time/description values
its card yields — both of which may be absent, as the record of a card
with no matching elements shows. -/
theorem extract_listings_shape (cards : List Card) (max_jobs : Nat) (now : Str) :
    (extract_job_listings cards max_jobs now).length = min max_jobs cards.length ∧
    (∀ i : Fin (extract_job_listings cards max_jobs now).length,
      ∃ hc : i.1 < cards.length,
        (extract_job_listings cards max_jobs now).get i
          = extract_job (cards.get ⟨i.1, hc⟩) now) ∧
    (∀ card : Card,
      (extract_job card now).title
        = some (((findTitle card title_selectors).map Prod.fst).getD
            "Title not found".toList) ∧
      (extract_job card now).company
        = some ((findCompany card company_selectors).getD
            "Company not found".toList) ∧
      (extract_job card now).location
        = some ((findLocation card location_selectors).getD
            "Location not found".toList) ∧
      (extract_job card now).posted_time = findPostedTime card time_selectors ∧
      (extract_job card now).description = findDescription card desc_selectors ∧
      (extract_job card now).extracted_at = some now) ∧
    extract_job emptyCard now =
      { title := some "Title not found".toList
        job_link := none
        company := some "Company not found".toList
        location := some "Location not found".toList
        posted_time := none
        description := none
        extracted_at := some now } := by
  refine ⟨?_, ?_, fun card => ⟨rfl, rfl, rfl, rfl, rfl, rfl⟩, rfl⟩
  · simp [extract_job_listings, List.length_take]
  · intro i
    have hi2 : i.1 < min max_jobs cards.length := by
      simpa [extract_job_listings, List.length_map, List.length_take] using i.isLt
    refine ⟨lt_of_lt_of_le hi2 (min_le_right _ _), ?_⟩
    show (List.map (fun card => extract_job card now) (cards.take max_jobs)).get i
      = _
    rw [List.get_eq_getElem, List.get_eq_getElem, List.getElem_map,
      List.getElem_take cards]
